import Mathlib

/-!
Verification of the things-mcp repository against its specification.

The development shallowly embeds the TypeScript sources:

* `src/url.ts` — the Things URL-scheme builder (`buildUrl`), the callback-to-direct
  rewrite (`toDirectUrl`), the xcall stdout parser (`parseXcallOutput`) and the
  auth-token accessors (`requireAuthToken`).
* `src/db.ts` — the date utilities (`coreDataTimestampToISO`, `dayIntegerToDate`)
  and the read-side query engine (`queryTodos`, `queryTodoById`, `queryProjectById`)
  over an explicit relational model of the Things SQLite tables.
* `src/tools.ts` — the pure skeletons of the `add-todo` / `update-todo` /
  `update-project` tool handlers (credential check, parameter mapping, URL build).

JavaScript strings are modelled as Lean `String`s (or `List Char` where the proofs
work on the character sequence), machine numbers as `Int` / `Nat`, `undefined` as
`Option.none`, and thrown exceptions as `Except`.
-/

namespace ThingsMcp

/-! ## URL builder (`src/url.ts`) -/

/-- A URL parameter value: the TS type `string | boolean` (the `undefined` case of
`ParamValue` is modelled by wrapping in `Option` at the parameter-list level). -/
inductive ParamValue where
  | str (s : String)
  | bool (b : Bool)
deriving DecidableEq, Repr

/-- A parameter record as iterated by `Object.entries`: keys in insertion order,
`undefined` values represented by `none`. -/
abbrev Params := List (String × Option ParamValue)

/-- Is `c` left unescaped by JavaScript `encodeURIComponent`
(`A–Z a–z 0–9 - _ . ! ~ * ' ( )`)? -/
def isUriUnreserved (c : Char) : Bool :=
  ('A' ≤ c && c ≤ 'Z') || ('a' ≤ c && c ≤ 'z') || ('0' ≤ c && c ≤ '9') ||
    c = '-' || c = '_' || c = '.' || c = '!' || c = '~' || c = '*' ||
    c = '\'' || c = '(' || c = ')'

/-- Uppercase hexadecimal digit for `n < 16`. -/
def hexDigitChar (n : Nat) : Char :=
  if n < 10 then Char.ofNat (48 + n) else Char.ofNat (55 + n)

/-- UTF-8 byte sequence of a code point. -/
def utf8Bytes (c : Char) : List Nat :=
  let n := c.toNat
  if n < 128 then [n]
  else if n < 2048 then [192 + n / 64, 128 + n % 64]
  else if n < 65536 then [224 + n / 4096, 128 + (n / 64) % 64, 128 + n % 64]
  else [240 + n / 262144, 128 + (n / 4096) % 64, 128 + (n / 64) % 64, 128 + n % 64]

/-- `%XX` escape of one byte. -/
def percentByte (b : Nat) : List Char :=
  ['%', hexDigitChar (b / 16), hexDigitChar (b % 16)]

/-- Model of `encode` in `src/url.ts`, i.e. of JavaScript `encodeURIComponent`:
unreserved characters pass through, every other character is replaced by the
percent-escapes of its UTF-8 bytes. -/
def encode (s : String) : String :=
  ⟨(s.data.map fun c =>
      if isUriUnreserved c then [c] else ((utf8Bytes c).map percentByte).flatten).flatten⟩

/-- The query-string part pushed for one defined parameter, from the loop body of
`buildUrl`: booleans render as the literals `true` / `false`, strings are
percent-encoded; the key is percent-encoded in both branches. -/
def paramPart (key : String) (v : ParamValue) : String :=
  match v with
  | .bool b => encode key ++ "=" ++ (if b then "true" else "false")
  | .str s => encode key ++ "=" ++ encode s

/-- The `parts` array assembled by `buildUrl`: the auth token first when truthy
(a JS `if (authToken)` — `undefined` and the empty string are both falsy), then
one part per defined parameter in iteration order (`undefined` skipped by
`continue`). -/
def urlParts (params : Params) (authToken : Option String) : List String :=
  (match authToken with
    | some tok => if tok = "" then [] else ["auth-token=" ++ encode tok]
    | none => []) ++
  params.filterMap fun kv => kv.2.map (paramPart kv.1)

/-- Model of JavaScript `Array.prototype.join("&")`. -/
def joinParts : List String → String
  | [] => ""
  | [p] => p
  | p :: rest => p ++ "&" ++ joinParts rest

/-- Model of `buildUrl` in `src/url.ts`: join the parts with `&`; if the query is
empty (falsy) the result is the command-only URL without `?`. The command is one
of the fixed `ThingsCommand` literals, modelled as a plain string. -/
def buildUrl (command : String) (params : Params) (authToken : Option String) : String :=
  let query := joinParts (urlParts params authToken)
  if query = "" then "things:///x-callback-url/" ++ command
  else "things:///x-callback-url/" ++ command ++ "?" ++ query

/-! ### Helper lemmas about the builder -/

theorem joinParts_cons (p : String) (rest : List String) :
    joinParts (p :: rest) = p ++ (if rest = [] then "" else "&" ++ joinParts rest) := by
  cases rest with
  | nil => simp [joinParts]
  | cons q t => simp [joinParts, String.append_assoc]

theorem urlParts_some (params : Params) (tok : String) (h : tok ≠ "") :
    urlParts params (some tok) = ("auth-token=" ++ encode tok) :: urlParts params none := by
  simp [urlParts, h]

theorem urlParts_none_eq (params : Params) :
    urlParts params none = params.filterMap fun kv => kv.2.map (paramPart kv.1) := by
  simp [urlParts]

theorem string_append_ne_empty_left (a b : String) (h : a.length ≠ 0) : a ++ b ≠ "" := by
  intro hab
  apply h
  have hlen := congrArg String.length hab
  rw [String.length_append] at hlen
  have hz : String.length "" = 0 := rfl
  omega

theorem mem_urlParts_none {params : Params} {k : String} {v : ParamValue}
    (h : (k, some v) ∈ params) : paramPart k v ∈ urlParts params none := by
  rw [urlParts_none_eq]
  exact List.mem_filterMap.mpr ⟨(k, some v), h, rfl⟩

/-- The defined query parts as the spec words them: keep exactly the parameters
whose value is defined, in mapping iteration order, each rendered as
`key=value` by the conventions of `paramPart`. -/
def specDefinedParts (params : Params) : List String :=
  (params.filter fun kv => kv.2.isSome).map fun kv =>
    match kv.2 with
    | some v => paramPart kv.1 v
    | none => ""

theorem filterMap_eq_specDefinedParts (params : Params) :
    (params.filterMap fun kv => kv.2.map (paramPart kv.1)) = specDefinedParts params := by
  induction params with
  | nil => rfl
  | cons kv rest ih =>
    obtain ⟨k, v⟩ := kv
    cases v with
    | none => simpa [specDefinedParts, List.filterMap_cons, List.filter_cons] using ih
    | some pv => simpa [specDefinedParts, List.filterMap_cons, List.filter_cons] using ih

/-- C3: with no credential, `buildUrl` emits exactly the parameters whose value is
defined, in mapping iteration order — `undefined`-valued parameters are omitted
entirely, empty-string values are emitted (distinct from undefined), booleans are
emitted as the literal strings `true`/`false` — and when zero parameters remain
after omission the result is a command-only URL with no `?`. -/
theorem buildUrl_defined_params (command : String) (params : Params) :
    urlParts params none = specDefinedParts params
  ∧ (∀ k s, (k, some (.str s)) ∈ params →
      (encode k ++ "=" ++ encode s) ∈ urlParts params none)
  ∧ (∀ k b, (k, some (.bool b)) ∈ params →
      (encode k ++ "=" ++ (if b then "true" else "false")) ∈ urlParts params none)
  ∧ ((params.filter fun kv => kv.2.isSome) = [] →
      buildUrl command params none = "things:///x-callback-url/" ++ command) := by
  refine ⟨(urlParts_none_eq params).trans (filterMap_eq_specDefinedParts params),
    fun k s h => mem_urlParts_none h, fun k b h => mem_urlParts_none h, fun h => ?_⟩
  have hparts : urlParts params none = [] := by
    rw [urlParts_none_eq, filterMap_eq_specDefinedParts, specDefinedParts, h]
    rfl
  simp [buildUrl, hparts, joinParts]

/-- Witness for C3 at concrete inputs: an empty-string value is emitted as `b=`,
and an all-undefined mapping yields the command-only URL without `?`. -/
theorem buildUrl_defined_params_witness :
    ("b=" : String) ∈ urlParts [("a", none), ("b", some (.str ""))] none
  ∧ buildUrl "version" [("x", none)] none = "things:///x-callback-url/version" := by
  constructor
  · have h := (buildUrl_defined_params "add" [("a", none), ("b", some (.str ""))]).2.1
      "b" "" (by decide)
    have he : encode "b" ++ "=" ++ encode "" = "b=" := by decide
    rwa [he] at h
  · exact (buildUrl_defined_params "version" [("x", none)]).2.2.2 (by decide)

/-- C2 (amended): for every command, parameter mapping and NON-EMPTY credential,
`buildUrl` emits the credential as the first query parameter, immediately after
the `?` and before any other parameter. (The original claim also covered the
empty-string credential; JS truthiness drops that one entirely — see the
counterexample.) -/
theorem buildUrl_credential_first (command : String) (params : Params) (tok : String)
    (h : tok ≠ "") :
    buildUrl command params (some tok) =
      "things:///x-callback-url/" ++ command ++ "?" ++ ("auth-token=" ++ encode tok) ++
        (if urlParts params none = [] then ""
         else "&" ++ joinParts (urlParts params none)) := by
  have hq : joinParts (urlParts params (some tok)) =
      ("auth-token=" ++ encode tok) ++
        (if urlParts params none = [] then ""
         else "&" ++ joinParts (urlParts params none)) := by
    rw [urlParts_some params tok h, joinParts_cons]
  have hne : joinParts (urlParts params (some tok)) ≠ "" := by
    rw [hq]
    apply string_append_ne_empty_left
    rw [String.length_append]
    have h11 : String.length "auth-token=" = 11 := rfl
    omega
  have hne2 : "auth-token=" ++ encode tok ++
      (if urlParts params none = [] then "" else "&" ++ joinParts (urlParts params none)) ≠ "" := by
    rw [← hq]
    exact hne
  simp only [buildUrl, hq, if_neg hne2]
  simp [String.append_assoc]

/-- Witness for C2 (amended) at a concrete non-empty credential and one parameter. -/
theorem buildUrl_credential_first_witness :
    buildUrl "update" [("title", some (.str "x"))] (some "tok") =
      "things:///x-callback-url/update?auth-token=tok&title=x" := by
  have h := buildUrl_credential_first "update" [("title", some (.str "x"))] "tok" (by decide)
  rw [h]
  decide

/-- C2 counterexample: with the empty-string credential the credential parameter is
not emitted at all — the `parts` array holds only `title=x` and the URL has no
`auth-token` parameter — contradicting the claim for the empty string. -/
theorem buildUrl_emptyToken_counterexample :
    buildUrl "add" [("title", some (.str "x"))] (some "") =
      "things:///x-callback-url/add?title=x"
  ∧ urlParts [("title", some (.str "x"))] (some "") = ["title=x"] := by
  constructor
  · decide
  · decide

/-! ## `toDirectUrl` (`src/url.ts`) -/

/-- Model of JavaScript `String.prototype.replace` with a string pattern: only the
FIRST occurrence of `pat` is replaced by `repl`. -/
def replaceFirst (pat repl : List Char) : List Char → List Char
  | [] => if pat = [] then repl else []
  | c :: rest =>
    if pat.isPrefixOf (c :: rest) then repl ++ (c :: rest).drop pat.length
    else c :: replaceFirst pat repl rest

/-- The callback-wrapped URL prefix stripped by `toDirectUrl`. -/
def callbackMarker : List Char := "things:///x-callback-url/".data

/-- Model of `toDirectUrl` in `src/url.ts`:
`url.replace("things:///x-callback-url/", "things:///")`, on strings as character
lists. -/
def toDirectUrl (url : List Char) : List Char :=
  replaceFirst callbackMarker "things:///".data url

theorem replaceFirst_noop (pat repl : List Char) (hpat : pat ≠ []) :
    ∀ s : List Char, ¬ pat <:+: s → replaceFirst pat repl s = s := by
  intro s
  induction s with
  | nil => intro _; simp [replaceFirst, hpat]
  | cons c rest ih =>
    intro h
    have hpre : ¬ pat.isPrefixOf (c :: rest) = true := by
      intro hp
      exact h (List.isPrefixOf_iff_prefix.mp hp).isInfix
    have htail : ¬ pat <:+: rest := fun ht => h (List.infix_cons_iff.mpr (Or.inr ht))
    simp only [replaceFirst, if_neg hpre, ih htail]

/-- C4 (amended): `toDirectUrl` is the identity on every string not containing the
callback path prefix (in particular on URLs already in direct form), and applying
it twice equals applying it once whenever the first application's result no longer
contains the prefix. (Unrestricted idempotence fails — see the counterexample.) -/
theorem toDirectUrl_direct_noop (url : List Char) :
    (¬ callbackMarker <:+: url → toDirectUrl url = url)
  ∧ (¬ callbackMarker <:+: toDirectUrl url →
      toDirectUrl (toDirectUrl url) = toDirectUrl url) := by
  have hpat : callbackMarker ≠ [] := by decide
  exact ⟨replaceFirst_noop callbackMarker "things:///".data hpat url,
    replaceFirst_noop callbackMarker "things:///".data hpat (toDirectUrl url)⟩

/-- Witness for C4 (amended) on a concrete direct-form URL. -/
theorem toDirectUrl_direct_noop_witness :
    toDirectUrl "things:///add?title=x".data = "things:///add?title=x".data
  ∧ toDirectUrl (toDirectUrl "things:///add?title=x".data) =
      toDirectUrl "things:///add?title=x".data := by
  constructor
  · exact (toDirectUrl_direct_noop "things:///add?title=x".data).1 (by decide)
  · exact (toDirectUrl_direct_noop "things:///add?title=x".data).2 (by decide)

/-- C4 counterexample: `toDirectUrl` is not idempotent on every string. On
`things:///x-callback-url/x-callback-url/add`, the first application yields
`things:///x-callback-url/add` (the removed text re-creates the prefix), and the
second strips it again. -/
theorem toDirectUrl_not_idempotent_counterexample :
    toDirectUrl (toDirectUrl "things:///x-callback-url/x-callback-url/add".data) ≠
      toDirectUrl "things:///x-callback-url/x-callback-url/add".data := by
  decide

/-! ## xcall output parsing (`src/url.ts`) -/

/-- A parsed JSON value, as produced by `JSON.parse`. Numbers keep their source
numeral (JSON.parse turns them into IEEE doubles that JavaScript re-renders on
string coercion; the model keeps the numeral text, which agrees with that
rendering on canonical integer numerals — the identifier payloads this layer
actually receives are strings). -/
inductive JsonVal where
  | null
  | bool (b : Bool)
  | num (lexeme : String)
  | str (s : String)
  | arr (elems : List JsonVal)
  | obj (members : List (String × JsonVal))

mutual

/-- JavaScript `String(value)` on a parsed JSON value. -/
def jsToString : JsonVal → String
  | .null => "null"
  | .bool b => if b then "true" else "false"
  | .num lexeme => lexeme
  | .str s => s
  | .arr elems => jsArrayJoin elems
  | .obj _ => "[object Object]"

/-- JavaScript `Array.prototype.join(",")` (the default `toString` of an array):
`null` elements render empty, others via `String(...)`. -/
def jsArrayJoin : List JsonVal → String
  | [] => ""
  | [v] => jsElemString v
  | v :: rest => jsElemString v ++ "," ++ jsArrayJoin rest

/-- One array element inside `join`: `null` renders as the empty string. -/
def jsElemString : JsonVal → String
  | .null => ""
  | .bool b => if b then "true" else "false"
  | .num lexeme => lexeme
  | .str s => s
  | .arr elems => jsArrayJoin elems
  | .obj _ => "[object Object]"

end

/-- JSON insignificant whitespace. -/
def skipWs : List Char → List Char
  | c :: rest =>
    if c = ' ' || c = '\t' || c = '\n' || c = '\r' then skipWs rest else c :: rest
  | [] => []

/-- Value of a hexadecimal digit. -/
def hexVal (c : Char) : Option Nat :=
  if '0' ≤ c && c ≤ '9' then some (c.toNat - 48)
  else if 'a' ≤ c && c ≤ 'f' then some (c.toNat - 87)
  else if 'A' ≤ c && c ≤ 'F' then some (c.toNat - 55)
  else none

/-- Body of a JSON string literal (after the opening quote): returns the decoded
characters and the remainder after the closing quote. `\uXXXX` escapes are decoded
with `Char.ofNat` (surrogate halves collapse, as they are not Unicode scalars). -/
def parseStringBody : Nat → List Char → Option (List Char × List Char)
  | 0, _ => none
  | _, [] => none
  | fuel + 1, c :: rest =>
    if c = '"' then some ([], rest)
    else if c = '\\' then
      match rest with
      | [] => none
      | e :: rest2 =>
        let cont := fun (ch : Char) (r : List Char) =>
          (parseStringBody fuel r).map fun p => (ch :: p.1, p.2)
        if e = '"' then cont '"' rest2
        else if e = '\\' then cont '\\' rest2
        else if e = '/' then cont '/' rest2
        else if e = 'b' then cont (Char.ofNat 8) rest2
        else if e = 'f' then cont (Char.ofNat 12) rest2
        else if e = 'n' then cont '\n' rest2
        else if e = 'r' then cont '\r' rest2
        else if e = 't' then cont '\t' rest2
        else if e = 'u' then
          match rest2 with
          | h1 :: h2 :: h3 :: h4 :: rest3 =>
            match hexVal h1, hexVal h2, hexVal h3, hexVal h4 with
            | some a, some b, some c2, some d =>
              cont (Char.ofNat (a * 4096 + b * 256 + c2 * 16 + d)) rest3
            | _, _, _, _ => none
          | _ => none
        else none
    else if c.toNat < 32 then none
    else (parseStringBody fuel rest).map fun p => (c :: p.1, p.2)

/-- Decimal digit test for the JSON number grammar. -/
def isJsonDigit (c : Char) : Bool := '0' ≤ c && c ≤ '9'

/-- Optional fraction part `.[0-9]+`. -/
def parseFracPart (s : List Char) : Option (List Char × List Char) :=
  match s with
  | '.' :: r =>
    let p := r.span isJsonDigit
    if p.1 = [] then none else some ('.' :: p.1, p.2)
  | _ => some ([], s)

/-- Optional exponent part `[eE][+-]?[0-9]+`. -/
def parseExpPart (s : List Char) : Option (List Char × List Char) :=
  match s with
  | c :: r =>
    if c = 'e' || c = 'E' then
      let signAndRest : List Char × List Char :=
        match r with
        | s1 :: r1 => if s1 = '+' || s1 = '-' then ([s1], r1) else ([], r)
        | [] => ([], r)
      let p := signAndRest.2.span isJsonDigit
      if p.1 = [] then none else some (c :: signAndRest.1 ++ p.1, p.2)
    else some ([], s)
  | [] => some ([], s)

/-- A JSON number: `-? (0 | [1-9][0-9]*) frac? exp?`; returns the numeral text. -/
def parseNumber (s : List Char) : Option (List Char × List Char) :=
  let negAndRest : List Char × List Char :=
    match s with
    | '-' :: r => (['-'], r)
    | _ => ([], s)
  match negAndRest.2 with
  | c :: r =>
    if c = '0' then
      match parseFracPart r with
      | some (f, r2) =>
        match parseExpPart r2 with
        | some (e, r3) => some (negAndRest.1 ++ ['0'] ++ f ++ e, r3)
        | none => none
      | none => none
    else if isJsonDigit c then
      let p := r.span isJsonDigit
      match parseFracPart p.2 with
      | some (f, r2) =>
        match parseExpPart r2 with
        | some (e, r3) => some (negAndRest.1 ++ (c :: p.1) ++ f ++ e, r3)
        | none => none
      | none => none
    else none
  | [] => none

mutual

/-- One JSON value (leading whitespace allowed), fuel-indexed recursive descent. -/
def parseVal : Nat → List Char → Option (JsonVal × List Char)
  | 0, _ => none
  | fuel + 1, s =>
    match skipWs s with
    | [] => none
    | c :: rest =>
      if c = '"' then
        (parseStringBody (rest.length + 1) rest).map fun p => (.str ⟨p.1⟩, p.2)
      else if c = '{' then parseMembers fuel rest true []
      else if c = '[' then parseElems fuel rest true []
      else if List.isPrefixOf "true".data (c :: rest) then
        some (.bool true, (c :: rest).drop 4)
      else if List.isPrefixOf "false".data (c :: rest) then
        some (.bool false, (c :: rest).drop 5)
      else if List.isPrefixOf "null".data (c :: rest) then
        some (.null, (c :: rest).drop 4)
      else
        (parseNumber (c :: rest)).map fun p => (.num ⟨p.1⟩, p.2)

/-- Members of an object literal after `{`; `first` is true before any member. -/
def parseMembers : Nat → List Char → Bool →
    List (String × JsonVal) → Option (JsonVal × List Char)
  | 0, _, _, _ => none
  | fuel + 1, s, first, acc =>
    match skipWs s with
    | [] => none
    | c :: rest =>
      if c = '}' then some (.obj acc.reverse, rest)
      else
        let afterSep : Option (List Char) :=
          if first then some (c :: rest)
          else if c = ',' then some rest
          else none
        match afterSep with
        | none => none
        | some s1 =>
          match skipWs s1 with
          | '"' :: r =>
            match parseStringBody (r.length + 1) r with
            | some (key, r1) =>
              match skipWs r1 with
              | ':' :: r2 =>
                match parseVal fuel r2 with
                | some (v, r3) => parseMembers fuel r3 false ((⟨key⟩, v) :: acc)
                | none => none
              | _ => none
            | none => none
          | _ => none

/-- Elements of an array literal after `[`; `first` is true before any element. -/
def parseElems : Nat → List Char → Bool →
    List JsonVal → Option (JsonVal × List Char)
  | 0, _, _, _ => none
  | fuel + 1, s, first, acc =>
    match skipWs s with
    | [] => none
    | c :: rest =>
      if c = ']' then some (.arr acc.reverse, rest)
      else
        let afterSep : Option (List Char) :=
          if first then some (c :: rest)
          else if c = ',' then some rest
          else none
        match afterSep with
        | none => none
        | some s1 =>
          match parseVal fuel s1 with
          | some (v, r1) => parseElems fuel r1 false (v :: acc)
          | none => none

end

/-- Model of `JSON.parse`: parse one value and require only whitespace after it. -/
def jsonParse (s : List Char) : Option JsonVal :=
  match parseVal (2 * s.length + 2) s with
  | some (v, rest) => if skipWs rest = [] then some v else none
  | none => none

/-- Property keys of a JS object built from the member list of an object literal,
in first-occurrence order (JS property creation order). -/
def firstKeys : List (String × JsonVal) → List String
  | [] => []
  | (k, _) :: rest => k :: (firstKeys rest).filter fun k2 => k2 ≠ k

/-- Last-assigned value for a key (later duplicate members overwrite the value). -/
def lastVal (k : String) (ms : List (String × JsonVal)) : Option JsonVal :=
  ((ms.filter fun kv => kv.1 = k).map Prod.snd).getLast?

/-- Model of `Object.entries` on the object produced by `JSON.parse` from a member
list: keys in first-occurrence order, each with its last assigned value. -/
def jsObjectEntries (ms : List (String × JsonVal)) : List (String × JsonVal) :=
  (firstKeys ms).filterMap fun k => (lastVal k ms).map fun v => (k, v)

/-- The `ExecuteResult` interface of `src/url.ts`; `callbackParams` is the
`Record<string, string>` modelled as an association list in entry order. -/
structure ExecuteResult where
  success : Bool
  thingsId : Option String := none
  callbackParams : Option (List (String × String)) := none
deriving DecidableEq, Repr

/-- Model of `parseXcallOutput` in `src/url.ts`, on the already-trimmed stdout of
xcall: empty output is plain success; output parsing as a JSON object (not null,
not an array) yields a fields mapping of its non-null members coerced to strings
with the primary id from `x-things-id`, falling back to `x-things-ids`; any other
output (parse failure or non-object JSON) becomes the primary id verbatim. -/
def parseXcallOutput (rawOutput : String) : ExecuteResult :=
  if rawOutput = "" then { success := true }
  else
    match jsonParse rawOutput.data with
    | some (.obj ms) =>
      let callbackParams := (jsObjectEntries ms).filterMap fun kv =>
        match kv.2 with
        | .null => none
        | v => some (kv.1, jsToString v)
      let thingsId :=
        (callbackParams.lookup "x-things-id").or (callbackParams.lookup "x-things-ids")
      { success := true, callbackParams := some callbackParams, thingsId := thingsId }
    | some _ => { success := true, thingsId := some rawOutput }
    | none => { success := true, thingsId := some rawOutput }

/-- The response-fields mapping as the spec words it: every non-null member of the
parsed object, in property order, coerced to its string form. -/
def specResponseFields (ms : List (String × JsonVal)) : List (String × String) :=
  (jsObjectEntries ms).filterMap fun kv =>
    match kv.2 with
    | .null => none
    | v => some (kv.1, jsToString v)

/-- C5 (amended): empty trimmed output yields success with no identifier and no
fields mapping; output parsing as a JSON object yields success with a fields
mapping of every NON-NULL member value coerced to its string form and the primary
identifier taken from `x-things-id`, falling back to `x-things-ids`; output that
fails JSON parsing yields success with the raw trimmed output as the primary
identifier and no fields mapping. (The original claim said every member value;
null-valued members are filtered out — see the counterexample.) -/
theorem parseXcallOutput_branches (raw : String) :
    (raw = "" → parseXcallOutput raw = { success := true })
  ∧ (∀ ms, raw ≠ "" → jsonParse raw.data = some (.obj ms) →
      parseXcallOutput raw =
        { success := true,
          thingsId := ((specResponseFields ms).lookup "x-things-id").or
            ((specResponseFields ms).lookup "x-things-ids"),
          callbackParams := some (specResponseFields ms) })
  ∧ (raw ≠ "" → jsonParse raw.data = none →
      parseXcallOutput raw = { success := true, thingsId := some raw }) := by
  refine ⟨fun h => by simp [parseXcallOutput, h], fun ms hne hp => ?_, fun hne hp => ?_⟩
  · simp [parseXcallOutput, hne, hp, specResponseFields]
  · simp [parseXcallOutput, hne, hp]

/-- Witness for C5 at the spec's own examples: an `x-things-id` object, an
`x-things-ids` fallback, a non-JSON string, and the empty output. -/
theorem parseXcallOutput_branches_witness :
    parseXcallOutput "\x7b\"x-things-id\":\"abc\"\x7d" =
      { success := true, thingsId := some "abc",
        callbackParams := some [("x-things-id", "abc")] }
  ∧ parseXcallOutput "\x7b\"x-things-ids\":\"a,b\"\x7d" =
      { success := true, thingsId := some "a,b",
        callbackParams := some [("x-things-ids", "a,b")] }
  ∧ parseXcallOutput "abc123" = { success := true, thingsId := some "abc123" }
  ∧ parseXcallOutput "" = { success := true } := by
  refine ⟨?_, ?_, ?_, ?_⟩
  · rw [(parseXcallOutput_branches "\x7b\"x-things-id\":\"abc\"\x7d").2.1
      [("x-things-id", .str "abc")] (by decide) (by rfl)]
    rfl
  · rw [(parseXcallOutput_branches "\x7b\"x-things-ids\":\"a,b\"\x7d").2.1
      [("x-things-ids", .str "a,b")] (by decide) (by rfl)]
    rfl
  · exact (parseXcallOutput_branches "abc123").2.2 (by decide) (by rfl)
  · exact (parseXcallOutput_branches "").1 rfl

/-- C5 counterexample: on the object output with a null member, the code filters
the member out of the fields mapping instead of coercing it to its string form
`"null"` — the mapping comes back empty, contradicting "containing every member
value coerced to its string form". -/
theorem parseXcallOutput_null_member_counterexample :
    (parseXcallOutput "\x7b\"a\":null\x7d").callbackParams = some []
  ∧ jsonParse ("\x7b\"a\":null\x7d").data = some (.obj [("a", .null)]) := by
  exact ⟨rfl, rfl⟩

/-! ## Auth token and tool handlers (`src/url.ts`, `src/tools.ts`) -/

/-- The remediation message of `requireAuthToken`. -/
def authTokenErrorMsg : String :=
  "THINGS_AUTH_TOKEN environment variable is required for this operation. " ++
    "Get your token from Things → Settings → General → Enable Things URLs → Manage. " ++
    "Then add it to your MCP client config as an environment variable."

/-- Model of `requireAuthToken` in `src/url.ts`: the `THINGS_AUTH_TOKEN` environment
variable is `none` when unset; the JS guard `if (!token)` also treats the empty
string as missing; the throw is modelled as `Except.error`. -/
def requireAuthToken (env : Option String) : Except String String :=
  match env with
  | some tok => if tok = "" then .error authTokenErrorMsg else .ok tok
  | none => .error authTokenErrorMsg

/-- Input of the `update-todo` tool (`registerUpdateTodo` in `src/tools.ts`); all
fields but `id` are optional. -/
structure UpdateTodoParams where
  id : String
  title : Option String := none
  notes : Option String := none
  prependNotes : Option String := none
  appendNotes : Option String := none
  when : Option String := none
  deadline : Option String := none
  tags : Option (List String) := none
  addTags : Option (List String) := none
  checklistItems : Option (List String) := none
  prependChecklistItems : Option (List String) := none
  appendChecklistItems : Option (List String) := none
  list : Option String := none
  listId : Option String := none
  heading : Option String := none
  headingId : Option String := none
  completed : Option Bool := none
  canceled : Option Bool := none
  reveal : Option Bool := none
  duplicate : Option Bool := none
  creationDate : Option String := none
  completionDate : Option String := none

/-- The camelCase → kebab-case URL parameter mapping of the `update-todo` handler,
in the object-literal order of the source; array values join with `,` (tags) or
newline (checklist items). -/
def updateTodoUrlParams (p : UpdateTodoParams) : Params :=
  [("id", some (.str p.id)),
   ("title", p.title.map .str),
   ("notes", p.notes.map .str),
   ("prepend-notes", p.prependNotes.map .str),
   ("append-notes", p.appendNotes.map .str),
   ("when", p.when.map .str),
   ("deadline", p.deadline.map .str),
   ("tags", p.tags.map fun ts => .str (String.intercalate "," ts)),
   ("add-tags", p.addTags.map fun ts => .str (String.intercalate "," ts)),
   ("checklist-items", p.checklistItems.map fun ts => .str (String.intercalate "\n" ts)),
   ("prepend-checklist-items",
     p.prependChecklistItems.map fun ts => .str (String.intercalate "\n" ts)),
   ("append-checklist-items",
     p.appendChecklistItems.map fun ts => .str (String.intercalate "\n" ts)),
   ("list", p.list.map .str),
   ("list-id", p.listId.map .str),
   ("heading", p.heading.map .str),
   ("heading-id", p.headingId.map .str),
   ("completed", p.completed.map .bool),
   ("canceled", p.canceled.map .bool),
   ("reveal", p.reveal.map .bool),
   ("duplicate", p.duplicate.map .bool),
   ("creation-date", p.creationDate.map .str),
   ("completion-date", p.completionDate.map .str)]

/-- Pure skeleton of the `update-todo` handler: require the auth token FIRST
(throwing with remediation instructions when it is missing), only then build the
`update` command URL with the token. -/
def updateTodoHandler (env : Option String) (p : UpdateTodoParams) :
    Except String String := do
  let authToken ← requireAuthToken env
  pure (buildUrl "update" (updateTodoUrlParams p) (some authToken))

/-- Input of the `update-project` tool (`registerUpdateProject` in `src/tools.ts`). -/
structure UpdateProjectParams where
  id : String
  title : Option String := none
  notes : Option String := none
  prependNotes : Option String := none
  appendNotes : Option String := none
  when : Option String := none
  deadline : Option String := none
  tags : Option (List String) := none
  addTags : Option (List String) := none
  area : Option String := none
  areaId : Option String := none
  completed : Option Bool := none
  canceled : Option Bool := none
  reveal : Option Bool := none
  duplicate : Option Bool := none
  creationDate : Option String := none
  completionDate : Option String := none

/-- The URL parameter mapping of the `update-project` handler. -/
def updateProjectUrlParams (p : UpdateProjectParams) : Params :=
  [("id", some (.str p.id)),
   ("title", p.title.map .str),
   ("notes", p.notes.map .str),
   ("prepend-notes", p.prependNotes.map .str),
   ("append-notes", p.appendNotes.map .str),
   ("when", p.when.map .str),
   ("deadline", p.deadline.map .str),
   ("tags", p.tags.map fun ts => .str (String.intercalate "," ts)),
   ("add-tags", p.addTags.map fun ts => .str (String.intercalate "," ts)),
   ("area", p.area.map .str),
   ("area-id", p.areaId.map .str),
   ("completed", p.completed.map .bool),
   ("canceled", p.canceled.map .bool),
   ("reveal", p.reveal.map .bool),
   ("duplicate", p.duplicate.map .bool),
   ("creation-date", p.creationDate.map .str),
   ("completion-date", p.completionDate.map .str)]

/-- Pure skeleton of the `update-project` handler: auth token first, then URL. -/
def updateProjectHandler (env : Option String) (p : UpdateProjectParams) :
    Except String String := do
  let authToken ← requireAuthToken env
  pure (buildUrl "update-project" (updateProjectUrlParams p) (some authToken))

/-- Input of the `add-todo` tool (`registerAddTodo` in `src/tools.ts`). -/
structure AddTodoParams where
  title : Option String := none
  titles : Option String := none
  notes : Option String := none
  when : Option String := none
  deadline : Option String := none
  tags : Option (List String) := none
  checklistItems : Option (List String) := none
  list : Option String := none
  listId : Option String := none
  heading : Option String := none
  headingId : Option String := none
  completed : Option Bool := none
  canceled : Option Bool := none
  reveal : Option Bool := none
  showQuickEntry : Option Bool := none
  useClipboard : Option Bool := none
  creationDate : Option String := none
  completionDate : Option String := none

/-- The URL parameter mapping of the `add-todo` handler. -/
def addTodoUrlParams (p : AddTodoParams) : Params :=
  [("title", p.title.map .str),
   ("titles", p.titles.map .str),
   ("notes", p.notes.map .str),
   ("when", p.when.map .str),
   ("deadline", p.deadline.map .str),
   ("tags", p.tags.map fun ts => .str (String.intercalate "," ts)),
   ("checklist-items", p.checklistItems.map fun ts => .str (String.intercalate "\n" ts)),
   ("list", p.list.map .str),
   ("list-id", p.listId.map .str),
   ("heading", p.heading.map .str),
   ("heading-id", p.headingId.map .str),
   ("completed", p.completed.map .bool),
   ("canceled", p.canceled.map .bool),
   ("reveal", p.reveal.map .bool),
   ("show-quick-entry", p.showQuickEntry.map .bool),
   ("use-clipboard", p.useClipboard.map .bool),
   ("creation-date", p.creationDate.map .str),
   ("completion-date", p.completionDate.map .str)]

/-- Pure skeleton of the `add-todo` handler: the source calls
`buildUrl("add", urlParams)` with NO auth token and never consults the
environment, so the handler is total whatever the credential state. -/
def addTodoHandler (env : Option String) (p : AddTodoParams) :
    Except String String :=
  .ok (buildUrl "add" (addTodoUrlParams p) none)

/-- C6: with the credential environment variable unset (or empty, which the JS
truthiness guard treats the same), `update-todo` and `update-project` fail with
the remediation message — `requireAuthToken` throws before `buildUrl` is ever
reached in the handler — while the creation handler succeeds with a URL built
without any credential. (Read queries never take a credential at all.) -/
theorem updateTools_require_token (env : Option String) (p : UpdateTodoParams)
    (q : UpdateProjectParams) (r : AddTodoParams)
    (h : env = none ∨ env = some "") :
    updateTodoHandler env p = .error authTokenErrorMsg
  ∧ updateProjectHandler env q = .error authTokenErrorMsg
  ∧ addTodoHandler env r = .ok (buildUrl "add" (addTodoUrlParams r) none) := by
  rcases h with h | h <;> subst h <;> exact ⟨rfl, rfl, rfl⟩

/-- Witness for C6 at the unset environment and minimal tool inputs. -/
theorem updateTools_require_token_witness :
    updateTodoHandler none { id := "t1" } = .error authTokenErrorMsg
  ∧ updateProjectHandler none { id := "p1" } = .error authTokenErrorMsg
  ∧ addTodoHandler none { title := some "milk" } =
      .ok (buildUrl "add" (addTodoUrlParams { title := some "milk" }) none) :=
  updateTools_require_token none { id := "t1" } { id := "p1" } { title := some "milk" }
    (Or.inl rfl)

/-! ## Date utilities (`src/db.ts`) -/

/-- Core Data reference: 2001-01-01T00:00:00Z in Unix epoch seconds. -/
def CORE_DATA_EPOCH : Int := 978307200

/-- Civil calendar date (year, month, day) from days since 1970-01-01 in the
proleptic Gregorian calendar, exactly what the JS `Date` UTC accessors expose. -/
def civilFromDays (z0 : Int) : Int × Int × Int :=
  let z := z0 + 719468
  let era := Int.fdiv z 146097
  let doe := z - era * 146097
  let yoe :=
    Int.fdiv (doe - Int.fdiv doe 1460 + Int.fdiv doe 36524 - Int.fdiv doe 146096) 365
  let y := yoe + era * 400
  let doy := doe - (365 * yoe + Int.fdiv yoe 4 - Int.fdiv yoe 100)
  let mp := Int.fdiv (5 * doy + 2) 153
  let d := doy - Int.fdiv (153 * mp + 2) 5 + 1
  let m := mp + (if mp < 10 then 3 else -9)
  (y + (if m ≤ 2 then 1 else 0), m, d)

/-- `String(n).padStart(2, "0")` for the non-negative date/time components. -/
def pad2 (n : Int) : String :=
  if n < 10 then "0" ++ toString n else toString n

/-- Three-digit millisecond field of `toISOString`. -/
def pad3 (n : Int) : String :=
  if n < 10 then "00" ++ toString n else if n < 100 then "0" ++ toString n else toString n

/-- Four-digit year field of `toISOString` (years 1–9999; the expanded ±YYYYYY
forms for years outside that range are not modelled). -/
def pad4 (n : Int) : String :=
  if n < 10 then "000" ++ toString n
  else if n < 100 then "00" ++ toString n
  else if n < 1000 then "0" ++ toString n
  else toString n

/-- Model of `coreDataTimestampToISO` in `src/db.ts`:
`new Date((timestamp + CORE_DATA_EPOCH) * 1000).toISOString()`, for integral
second counts (the timestamp columns are modelled at second precision). -/
def coreDataTimestampToISO (timestamp : Int) : String :=
  let ms := (timestamp + CORE_DATA_EPOCH) * 1000
  let day := Int.fdiv ms 86400000
  let msOfDay := ms - day * 86400000
  let c := civilFromDays day
  pad4 c.1 ++ "-" ++ pad2 c.2.1 ++ "-" ++ pad2 c.2.2 ++ "T" ++
    pad2 (Int.fdiv msOfDay 3600000) ++ ":" ++
    pad2 (Int.fdiv (Int.emod msOfDay 3600000) 60000) ++ ":" ++
    pad2 (Int.fdiv (Int.emod msOfDay 60000) 1000) ++ "." ++
    pad3 (Int.emod msOfDay 1000) ++ "Z"

/-- Model of `dayIntegerToDate` in `src/db.ts`: `(dayInt * 86400 + CORE_DATA_EPOCH)`
seconds rendered through the `Date` UTC accessors as `YYYY-MM-DD` (the year is
emitted unpadded by the source's template literal). -/
def dayIntegerToDate (dayInt : Int) : String :=
  let ms := (dayInt * 86400 + CORE_DATA_EPOCH) * 1000
  let c := civilFromDays (Int.fdiv ms 86400000)
  toString c.1 ++ "-" ++ pad2 c.2.1 ++ "-" ++ pad2 c.2.2

/-! ## Relational model of the Things store (`src/db.ts`) -/

/-- A `TMTask` row (the columns `src/db.ts` reads). `creationDate`,
`userModificationDate` and `stopDate` are REAL columns modelled at integral
second precision; `index` is the stored position column. -/
structure TaskRow where
  uuid : String
  title : String := ""
  notes : Option String := none
  type : Int := 0
  status : Int := 0
  start : Option Int := some 0
  startDate : Option Int := none
  deadline : Option Int := none
  todayIndex : Int := 0
  project : Option String := none
  area : Option String := none
  heading : Option String := none
  trashed : Int := 0
  creationDate : Int := 0
  userModificationDate : Option Int := none
  stopDate : Option Int := none
  index : Int := 0
deriving DecidableEq, Repr

/-- A `TMArea` row. -/
structure AreaRow where
  uuid : String
  title : String := ""
  visible : Int := 1
  index : Int := 0
deriving DecidableEq, Repr

/-- A `TMTag` row. -/
structure TagRow where
  uuid : String
  title : String := ""
  shortcut : Option String := none
  parent : Option String := none
deriving DecidableEq, Repr

/-- A `TMTaskTag` association row. -/
structure TaskTagRow where
  tasks : String
  tags : String
deriving DecidableEq, Repr

/-- A `TMChecklistItem` row. -/
structure ChecklistItemRow where
  uuid : String
  title : String := ""
  status : Int := 0
  task : String
  index : Int := 0
deriving DecidableEq, Repr

/-- The tables of the Things SQLite store that `src/db.ts` reads. `uuid` columns
are primary keys, so single-row joins are modelled with `List.find?`. -/
structure Database where
  tasks : List TaskRow := []
  areas : List AreaRow := []
  tags : List TagRow := []
  taskTags : List TaskTagRow := []
  checklistItems : List ChecklistItemRow := []
deriving DecidableEq, Repr

/-- The `ChecklistItem` read model of `src/db.ts`. -/
structure ChecklistItem where
  uuid : String
  title : String
  completed : Bool
deriving DecidableEq, Repr

/-- The `Todo` read model of `src/db.ts`; the status and scheduling-bucket string
unions are modelled as plain strings. -/
structure Todo where
  uuid : String
  title : String
  notes : String
  status : String
  start : Option String
  startDate : Option String
  deadline : Option String
  todayIndex : Int
  projectId : Option String
  projectTitle : Option String
  areaId : Option String
  areaTitle : Option String
  headingId : Option String
  headingTitle : Option String
  creationDate : String
  modificationDate : Option String
  completionDate : Option String
  tags : List String
  checklistItems : List ChecklistItem
deriving DecidableEq, Repr

/-- A heading reference of `ProjectDetail`. -/
structure HeadingRef where
  uuid : String
  title : String
deriving DecidableEq, Repr

/-- The `ProjectDetail` read model of `src/db.ts` (`queryProjectById`). -/
structure ProjectDetail where
  uuid : String
  title : String
  notes : String
  status : String
  start : Option String
  startDate : Option String
  deadline : Option String
  areaId : Option String
  areaTitle : Option String
  creationDate : String
  modificationDate : Option String
  completionDate : Option String
  tags : List String
  headings : List HeadingRef
  todos : List Todo
deriving DecidableEq, Repr

/-- Model of `mapStatus`: 3 is completed, 2 is canceled, everything else open. -/
def mapStatus (status : Int) : String :=
  if status = 3 then "completed" else if status = 2 then "canceled" else "open"

/-- Model of `mapStart`: 0/1/2 are inbox/anytime/someday, anything else null. -/
def mapStart (start : Option Int) : Option String :=
  match start with
  | some 0 => some "inbox"
  | some 1 => some "anytime"
  | some 2 => some "someday"
  | _ => none

/-- Stable insertion of one element in front of the first entry it precedes. -/
def insertBy (le : α → α → Bool) (a : α) : List α → List α
  | [] => [a]
  | b :: rest => if le a b then a :: b :: rest else b :: insertBy le a rest

/-- Stable insertion sort; models the deterministic order SQLite returns for an
`ORDER BY` whose keys the comparator encodes (full ties keep source order). -/
def sortBy (le : α → α → Bool) : List α → List α
  | [] => []
  | a :: rest => insertBy le a (sortBy le rest)

theorem insertBy_perm (le : α → α → Bool) (a : α) (l : List α) :
    List.Perm (insertBy le a l) (a :: l) := by
  induction l with
  | nil => exact List.Perm.refl _
  | cons b rest ih =>
    by_cases h : le a b = true
    · simp [insertBy, h]
    · simp only [insertBy, if_neg h]
      exact (ih.cons b).trans (List.Perm.swap a b rest)

theorem sortBy_perm (le : α → α → Bool) (l : List α) :
    List.Perm (sortBy le l) l := by
  induction l with
  | nil => exact List.Perm.refl _
  | cons a rest ih => exact (insertBy_perm le a (sortBy le rest)).trans (ih.cons a)

/-- The single project row a `LEFT JOIN TMTask p ON t.project = p.uuid` attaches
(`NULL` join key matches nothing). -/
def projectRowFor (db : Database) (t : TaskRow) : Option TaskRow :=
  t.project.bind fun pid => db.tasks.find? fun p => p.uuid == pid

/-- The area row attached by `LEFT JOIN TMArea a ON COALESCE(t.area, p.area) =
a.uuid`: the to-do's own area if set, else the parent project's. -/
def areaRowFor (db : Database) (t : TaskRow) : Option AreaRow :=
  (match t.area with
    | some aid => some aid
    | none => (projectRowFor db t).bind fun p => p.area).bind
    fun aid => db.areas.find? fun a => a.uuid == aid

/-- The heading row attached by `LEFT JOIN TMTask h ON t.heading = h.uuid AND
h.type = 2`. -/
def headingRowFor (db : Database) (t : TaskRow) : Option TaskRow :=
  t.heading.bind fun hid => db.tasks.find? fun h => h.uuid == hid && h.type == 2

/-- Model of `batchLoadTags` for one uuid: titles of the tags associated to the
task, ordered by title ascending (`ORDER BY t.title ASC`). -/
def tagTitlesFor (db : Database) (uuid : String) : List String :=
  sortBy (fun a b => a ≤ b)
    ((db.taskTags.filter fun tt => tt.tasks == uuid).filterMap fun tt =>
      (db.tags.find? fun tg => tg.uuid == tt.tags).map TagRow.title)

/-- Model of `batchLoadChecklists` for one uuid: the checklist rows of the task in
stored order (`ORDER BY "index" ASC`), `completed` iff status = 3. -/
def checklistFor (db : Database) (uuid : String) : List ChecklistItem :=
  (sortBy (fun a b => a.index ≤ b.index)
      (db.checklistItems.filter fun ci => ci.task == uuid)).map
    fun ci => { uuid := ci.uuid, title := ci.title, completed := ci.status == (3 : Int) }

/-- Model of `formatTodo` applied to the row projection of the to-do queries:
joined project / area / heading titles, day integers rendered as dates, timestamps
as ISO strings, tags and checklist items attached. `areaId` is the row's own
`t.area`; only the TITLE comes through the COALESCE join. -/
def formatTodo (db : Database) (t : TaskRow) : Todo :=
  { uuid := t.uuid
    title := t.title
    notes := t.notes.getD ""
    status := mapStatus t.status
    start := mapStart t.start
    startDate := t.startDate.map dayIntegerToDate
    deadline := t.deadline.map dayIntegerToDate
    todayIndex := t.todayIndex
    projectId := t.project
    projectTitle := (projectRowFor db t).map TaskRow.title
    areaId := t.area
    areaTitle := (areaRowFor db t).map AreaRow.title
    headingId := t.heading
    headingTitle := (headingRowFor db t).map TaskRow.title
    creationDate := coreDataTimestampToISO t.creationDate
    modificationDate := t.userModificationDate.map coreDataTimestampToISO
    completionDate := t.stopDate.map coreDataTimestampToISO
    tags := tagTitlesFor db t.uuid
    checklistItems := checklistFor db t.uuid }

/-- Model of `queryTodoById`: first row with the given uuid and the to-do type
discriminant, formatted; `none` when absent or the id names a project/heading. -/
def queryTodoById (db : Database) (uuid : String) : Option Todo :=
  (db.tasks.find? fun t => t.uuid == uuid && t.type == 0).map (formatTodo db)

/-- The `TodoList` union of `src/db.ts`. -/
inductive TodoList where
  | inbox
  | today
  | anytime
  | someday
  | upcoming
  | logbook
  | trash
deriving DecidableEq, Repr

/-- The status filter union `"open" | "completed" | "canceled"`; `opened` stands
for the literal `"open"` (a Lean keyword). -/
inductive StatusFilter where
  | opened
  | completed
  | canceled
deriving DecidableEq, Repr

/-- The `statusMap` lookup `\x7b open: 0, completed: 3, canceled: 2 \x7d`. -/
def statusCode : StatusFilter → Int
  | .opened => 0
  | .completed => 3
  | .canceled => 2

/-- The `TodoFilters` record of `src/db.ts`. The `tag` field is declared by the
interface and accepted by callers. `limit` is a row count (the SQL binds it to
`LIMIT`). -/
structure TodoFilters where
  list : Option TodoList := none
  projectId : Option String := none
  areaId : Option String := none
  tag : Option String := none
  search : Option String := none
  status : Option StatusFilter := none
  limit : Option Nat := none
deriving DecidableEq, Repr

/-- ASCII lower-casing, as SQLite's default `LIKE` applies to ASCII letters. -/
def asciiLower (s : String) : String :=
  ⟨s.data.map fun c =>
    if 'A' ≤ c && c ≤ 'Z' then Char.ofNat (c.toNat + 32) else c⟩

/-- Model of `column LIKE '%' || needle || '%'` under SQLite's default
case-insensitive (ASCII) collation: case-folded substring containment. Wildcard
metacharacters inside the search text are not modelled. -/
def likeContains (hay needle : String) : Bool :=
  decide ((asciiLower needle).data <:+: (asciiLower hay).data)

/-- The WHERE predicate assembled by `queryTodos`, one conjunct per entry of the
`conditions` array: the to-do type discriminant, the trashed exclusion (skipped
only for the trash list), the per-list predicate, and the status / projectId /
areaId / search narrowing (each guarded by JS truthiness, so an empty-string
filter value pushes no condition). `p` is the LEFT-JOINed parent project (for the
inherited-area match). `todayDays` is the value of `todayAsDayInteger()`. -/
def todoFilterPred (db : Database) (todayDays : Int) (f : TodoFilters)
    (t : TaskRow) : Bool :=
  let p := projectRowFor db t
  (t.type == (0 : Int))
  && (if f.list == some TodoList.trash then true else t.trashed == (0 : Int))
  && (match f.list with
      | some .inbox =>
          t.status == (0 : Int) && t.start == some (0 : Int) && t.project == none
      | some .today =>
          t.status == (0 : Int) &&
            (decide (t.todayIndex > 0) ||
              (t.startDate.isSome &&
                match t.startDate with
                | some d => decide (d ≤ todayDays)
                | none => false))
      | some .anytime =>
          t.status == (0 : Int) && t.start == some (1 : Int) &&
            (t.startDate == none ||
              match t.startDate with
              | some d => decide (d ≤ todayDays)
              | none => false)
      | some .someday => t.status == (0 : Int) && t.start == some (2 : Int)
      | some .upcoming =>
          t.status == (0 : Int) && t.start == some (1 : Int) &&
            t.startDate.isSome &&
            (match t.startDate with
              | some d => decide (d > todayDays)
              | none => false)
      | some .logbook => t.status == (3 : Int)
      | some .trash => t.trashed == (1 : Int)
      | none => true)
  && (match f.status with
      | some sf => t.status == statusCode sf
      | none => true)
  && (match f.projectId with
      | some pid => if pid = "" then true else t.project == some pid
      | none => true)
  && (match f.areaId with
      | some aid =>
          if aid = "" then true
          else t.area == some aid || (p.bind TaskRow.area) == some aid
      | none => true)
  && (match f.search with
      | some s =>
          if s = "" then true
          else
            likeContains t.title s ||
              (match t.notes with
                | some n => likeContains n s
                | none => false)
      | none => true)

/-- The ORDER BY of `queryTodos`: `todayIndex ASC, creationDate DESC`, except the
logbook which orders by `stopDate DESC` (SQLite places NULLs last in DESC). -/
def todoOrderLe (f : TodoFilters) (t1 t2 : TaskRow) : Bool :=
  if f.list == some TodoList.logbook then
    match t1.stopDate, t2.stopDate with
    | some a, some b => decide (b ≤ a)
    | some _, none => true
    | none, some _ => false
    | none, none => true
  else
    decide (t1.todayIndex < t2.todayIndex) ||
      (t1.todayIndex == t2.todayIndex && decide (t2.creationDate ≤ t1.creationDate))

/-- Model of `queryTodos`: filter the unified task table by the assembled
conditions, order, truncate to the limit (default 50), format each row with its
batch-loaded tags and checklist items. `todayDays` stands for the impure
`todayAsDayInteger()` call. -/
def queryTodos (db : Database) (todayDays : Int) (filters : TodoFilters) :
    List Todo :=
  let limit := filters.limit.getD 50
  (((sortBy (todoOrderLe filters)
      (db.tasks.filter (todoFilterPred db todayDays filters))).take limit).map
    (formatTodo db))

/-- The child-to-do projection of `queryProjectById`: the same row shape as
`formatTodo` EXCEPT that the SQL selects the bound parameter `$uuid AS
projectTitle`, and the area join is on the to-do's own area only
(`LEFT JOIN TMArea a2 ON t.area = a2.uuid`, no COALESCE). -/
def formatProjectChildTodo (db : Database) (uuid : String) (t : TaskRow) : Todo :=
  { uuid := t.uuid
    title := t.title
    notes := t.notes.getD ""
    status := mapStatus t.status
    start := mapStart t.start
    startDate := t.startDate.map dayIntegerToDate
    deadline := t.deadline.map dayIntegerToDate
    todayIndex := t.todayIndex
    projectId := t.project
    projectTitle := some uuid
    areaId := t.area
    areaTitle := (t.area.bind fun aid =>
      db.areas.find? fun a => a.uuid == aid).map AreaRow.title
    headingId := t.heading
    headingTitle := (headingRowFor db t).map TaskRow.title
    creationDate := coreDataTimestampToISO t.creationDate
    modificationDate := t.userModificationDate.map coreDataTimestampToISO
    completionDate := t.stopDate.map coreDataTimestampToISO
    tags := tagTitlesFor db t.uuid
    checklistItems := checklistFor db t.uuid }

/-- Model of `queryProjectById`: the project row (type discriminant 1), its
non-trashed headings and child to-dos in stored order, each child annotated as
the SQL projects it. -/
def queryProjectById (db : Database) (uuid : String) : Option ProjectDetail :=
  match db.tasks.find? fun t => t.uuid == uuid && t.type == (1 : Int) with
  | none => none
  | some row =>
    let areaRow := row.area.bind fun aid => db.areas.find? fun a => a.uuid == aid
    let headings :=
      (sortBy (fun h1 h2 => decide (h1.index ≤ h2.index))
          (db.tasks.filter fun h =>
            h.project == some uuid && h.type == (2 : Int) && h.trashed == (0 : Int))).map
        fun h => HeadingRef.mk h.uuid h.title
    let todoRows :=
      sortBy (fun t1 t2 => decide (t1.index ≤ t2.index))
        (db.tasks.filter fun t =>
          t.project == some uuid && t.type == (0 : Int) && t.trashed == (0 : Int))
    some
      { uuid := row.uuid
        title := row.title
        notes := row.notes.getD ""
        status := mapStatus row.status
        start := mapStart row.start
        startDate := row.startDate.map dayIntegerToDate
        deadline := row.deadline.map dayIntegerToDate
        areaId := row.area
        areaTitle := areaRow.map AreaRow.title
        creationDate := coreDataTimestampToISO row.creationDate
        modificationDate := row.userModificationDate.map coreDataTimestampToISO
        completionDate := row.stopDate.map coreDataTimestampToISO
        tags := tagTitlesFor db uuid
        headings := headings
        todos := todoRows.map (formatProjectChildTodo db uuid) }

/-! ## Claim theorems over the query engine and date utilities -/

/-- C8: the date utilities are anchored at the reference instant 978307200 seconds
after the Unix epoch: `coreDataTimestampToISO 0` is the reference instant's UTC
ISO-8601 form with millisecond precision, `dayIntegerToDate 0` is its calendar
date, and `dayIntegerToDate 365` is that date plus 365 days. -/
theorem dateUtils_reference_instant :
    coreDataTimestampToISO 0 = "2001-01-01T00:00:00.000Z"
  ∧ dayIntegerToDate 0 = "2001-01-01"
  ∧ dayIntegerToDate 365 = "2002-01-01" :=
  ⟨rfl, rfl, rfl⟩

/-- C9: `queryTodos` is independent of the accepted `tag` filter field — the
function body never reads `filters.tag`, so any filter set returns exactly what
the same filters with `tag` removed return. -/
theorem queryTodos_tag_ignored (db : Database) (todayDays : Int) (f : TodoFilters) :
    queryTodos db todayDays f = queryTodos db todayDays { f with tag := none } := by
  cases f
  rfl

/-- C10: every child to-do in a `queryProjectById` result carries the bound uuid
parameter as its `projectTitle` (the SQL aliases `$uuid AS projectTitle`), not the
project's title. -/
theorem queryProjectById_child_projectTitle (db : Database) (uuid : String)
    (td : Todo)
    (h : td ∈ ((queryProjectById db uuid).map ProjectDetail.todos).getD []) :
    td.projectTitle = some uuid := by
  cases hfind : db.tasks.find? fun t => t.uuid == uuid && t.type == (1 : Int) with
  | none => simp [queryProjectById, hfind] at h
  | some row =>
    simp only [queryProjectById, hfind, Option.map_some', Option.getD_some,
      List.mem_map] at h
    obtain ⟨t, _, rfl⟩ := h
    rfl

/-- Example store for C10: a project whose title differs from its uuid, holding
one child to-do. -/
def exProjectDb : Database :=
  { tasks := [{ uuid := "p1", title := "My Project", type := 1 },
              { uuid := "t1", title := "Child", project := some "p1" }] }

/-- Witness for C10: in `exProjectDb` the child of project `p1` (titled
`My Project`) reports `projectTitle = some "p1"`, not the title. -/
theorem queryProjectById_child_projectTitle_witness :
    (formatProjectChildTodo exProjectDb "p1"
      { uuid := "t1", title := "Child", project := some "p1" }).projectTitle = some "p1"
  ∧ (some "p1" : Option String) ≠ some "My Project" := by
  refine ⟨queryProjectById_child_projectTitle exProjectDb "p1" _ ?_, by decide⟩
  decide

/-- C1 (amended): for a to-do whose own area is null but whose parent project has
an area, `queryTodoById` resolves the inherited area TITLE through the COALESCE
join, while the returned area ID stays the to-do's own null `t.area` — only the
title is inherited. -/
theorem queryTodoById_inherited_area (db : Database) (uuid pid aid : String)
    (t p : TaskRow) (ar : AreaRow)
    (ht : (db.tasks.find? fun r => r.uuid == uuid && r.type == (0 : Int)) = some t)
    (hOwnArea : t.area = none)
    (hProj : t.project = some pid)
    (hp : (db.tasks.find? fun r => r.uuid == pid) = some p)
    (hpArea : p.area = some aid)
    (ha : (db.areas.find? fun a => a.uuid == aid) = some ar) :
    (queryTodoById db uuid).map Todo.areaTitle = some (some ar.title)
  ∧ (queryTodoById db uuid).map Todo.areaId = some none := by
  have hArea : areaRowFor db t = some ar := by
    simp [areaRowFor, hOwnArea, projectRowFor, hProj, hp, hpArea, ha]
  constructor
  · simp [queryTodoById, ht, formatTodo, hArea]
  · simp [queryTodoById, ht, formatTodo, hOwnArea]

/-- Example store for C1: to-do `t1` without an own area inside project `p1`
whose area is `a1` (titled `Work`). -/
def exInheritDb : Database :=
  { tasks := [{ uuid := "p1", title := "Proj", type := 1, area := some "a1" },
              { uuid := "t1", title := "Task", project := some "p1" }],
    areas := [{ uuid := "a1", title := "Work" }] }

/-- Witness for C1 (amended) on `exInheritDb`. -/
theorem queryTodoById_inherited_area_witness :
    (queryTodoById exInheritDb "t1").map Todo.areaTitle = some (some "Work")
  ∧ (queryTodoById exInheritDb "t1").map Todo.areaId = some none :=
  queryTodoById_inherited_area exInheritDb "t1" "p1" "a1"
    { uuid := "t1", title := "Task", project := some "p1" }
    { uuid := "p1", title := "Proj", type := 1, area := some "a1" }
    { uuid := "a1", title := "Work" } rfl rfl rfl rfl rfl rfl

/-- C1 counterexample: on `exInheritDb`, `queryTodoById` returns the inherited
area TITLE but a null area ID (the SQL selects `t.area AS areaId`), so the claim
that both the inherited area id and title are resolved fails. -/
theorem queryTodoById_area_id_counterexample :
    (queryTodoById exInheritDb "t1").map (fun td => (td.areaId, td.areaTitle)) =
      some (none, some "Work")
  ∧ (queryTodoById exInheritDb "t1").map Todo.areaId ≠ some (some "a1") := by
  exact ⟨rfl, by decide⟩

/-- The today-list membership predicate exactly as the spec words it: a
non-trashed to-do row with open status satisfying the disjunction
(today-position > 0 OR (start date set AND start date ≤ today)). -/
def todaySpecPred (todayDays : Int) (t : TaskRow) : Bool :=
  t.type == (0 : Int) && t.trashed == (0 : Int) && t.status == (0 : Int) &&
    (decide (t.todayIndex > 0) ||
      (t.startDate.isSome &&
        match t.startDate with
        | some d => decide (d ≤ todayDays)
        | none => false))

theorem todoFilterPred_today (db : Database) (todayDays : Int) (t : TaskRow) :
    todoFilterPred db todayDays { list := some TodoList.today } t =
      todaySpecPred todayDays t := by
  simp [todoFilterPred, todaySpecPred, Bool.and_assoc]

/-- C7 (amended): whenever at most the default limit of 50 rows match,
`queryTodos` with `list = "today"` returns exactly (as a multiset of row ids) the
non-trashed open to-do rows satisfying the disjunction (today-position > 0 OR
(start date set AND start date ≤ today)); rows beyond the default `LIMIT 50` are
truncated, which is what the original unqualified claim misses. -/
theorem queryTodos_today_members (db : Database) (todayDays : Int)
    (h : (db.tasks.filter (todaySpecPred todayDays)).length ≤ 50) :
    List.Perm
      ((queryTodos db todayDays { list := some TodoList.today }).map Todo.uuid)
      ((db.tasks.filter (todaySpecPred todayDays)).map TaskRow.uuid) := by
  have hfilter :
      db.tasks.filter (todoFilterPred db todayDays { list := some TodoList.today }) =
        db.tasks.filter (todaySpecPred todayDays) :=
    List.filter_congr fun t _ => todoFilterPred_today db todayDays t
  have hperm := sortBy_perm (todoOrderLe { list := some TodoList.today })
    (db.tasks.filter (todaySpecPred todayDays))
  have hlen : (sortBy (todoOrderLe { list := some TodoList.today })
      (db.tasks.filter (todaySpecPred todayDays))).length ≤ 50 := by
    rw [hperm.length_eq]
    exact h
  simp only [queryTodos, hfilter, Option.getD_none, List.take_of_length_le hlen,
    List.map_map]
  exact hperm.map _

/-- Store for the C7 witness: one open to-do with a FUTURE start date but a
positive today-position. -/
def futureTodayDb : Database :=
  { tasks := [{ uuid := "t1", todayIndex := 1, start := some 1, startDate := some 10 }] }

/-- Witness for C7 (amended): with today = 0, the future-start (`startDate = 10`)
but explicitly placed (`todayIndex = 1`) to-do IS returned by the today list. -/
theorem queryTodos_today_members_witness :
    List.Perm
      ((queryTodos futureTodayDb 0 { list := some TodoList.today }).map Todo.uuid)
      ["t1"] := by
  have h := queryTodos_today_members futureTodayDb 0 (by decide)
  have e : (futureTodayDb.tasks.filter (todaySpecPred 0)).map TaskRow.uuid = ["t1"] := rfl
  rwa [e] at h

/-- Store for the C7 counterexample: 51 open to-dos all explicitly placed in
Today via a positive today-position. -/
def bigTodayDb : Database :=
  { tasks := (List.range 51).map fun i =>
      { uuid := toString i, todayIndex := Int.ofNat i + 1 } }

/-- C7 counterexample: with 51 matching rows, `queryTodos` returns only 50 (the
default `LIMIT`), so it does not return exactly the satisfying rows. -/
theorem queryTodos_today_limit_counterexample :
    (queryTodos bigTodayDb 0 { list := some TodoList.today }).length = 50
  ∧ (bigTodayDb.tasks.filter (todaySpecPred 0)).length = 51 :=
  ⟨rfl, rfl⟩

end ThingsMcp
